import Mathlib

/-!
Verification of the kp347 thermal-printer driver (command encoder, timing
flow controller, print-mode state machine and bitmap chunker).

The C sources hold two near-identical ports of the driver: the kp347 port
(functions `write`, `timeoutWait`, `begin`, ...) and the `printer_` port
(functions `printer_write`, `printer_timeoutWait`, ...).  Both are embedded
here where a claim needs them.  Machine integers are modelled as `Nat`
(with explicit `% 256` / `% 2^32` where C truncation matters) and the C
`int` parameters of the bitmap functions as `Int` where negative inputs
matter.  Byte emission, flow-control waits and deadline updates are
modelled as an explicit event trace.
-/

set_option maxRecDepth 4000

namespace KP347

/-- Events emitted towards the transport / flow-control layer:
a `timeoutWait` call, a single byte sent via `KP347_SEND_BYTE`,
a `timeoutSet` call recording a new deadline, and a busy `delay`. -/
inductive Ev where
  | wait : Ev
  | send (b : Nat) : Ev
  | setTimeout (d : Nat) : Ev
  | delay (ms : Nat) : Ev
  deriving DecidableEq

/-- `BYTE_TIME`: microseconds to issue one byte,
`(((11L * 1000000L) + (BAUDRATE / 2)) / BAUDRATE)` with `BAUDRATE = 19200`. -/
def BYTE_TIME : Nat := (11 * 1000000 + 19200 / 2) / 19200

/-- Trace of `writeBytes(a)`: wait, send one byte, set a one-byte deadline. -/
def writeBytes (a : Nat) : List Ev :=
  [Ev.wait, Ev.send a, Ev.setTimeout BYTE_TIME]

/-- Trace of `writeDoubleBytes(a,b)`: one wait, two sends, one aggregate deadline. -/
def writeDoubleBytes (a b : Nat) : List Ev :=
  [Ev.wait, Ev.send a, Ev.send b, Ev.setTimeout (2 * BYTE_TIME)]

/-- Trace of `writeTripleBytes(a,b,c)`. -/
def writeTripleBytes (a b c : Nat) : List Ev :=
  [Ev.wait, Ev.send a, Ev.send b, Ev.send c, Ev.setTimeout (3 * BYTE_TIME)]

/-- Trace of `writeQuadBytes(a,b,c,d)`. -/
def writeQuadBytes (a b c d : Nat) : List Ev :=
  [Ev.wait, Ev.send a, Ev.send b, Ev.send c, Ev.send d,
   Ev.setTimeout (4 * BYTE_TIME)]

/-- Data bytes of a trace (arguments of `send` events, in order). -/
def sends (t : List Ev) : List Nat :=
  t.filterMap (fun e => match e with | Ev.send b => some b | _ => none)

/-- Deadlines recorded by a trace (arguments of `setTimeout` events, in order). -/
def timeouts (t : List Ev) : List Nat :=
  t.filterMap (fun e => match e with | Ev.setTimeout d => some d | _ => none)

/-- Number of `timeoutWait` calls in a trace. -/
def waitCount (t : List Ev) : Nat :=
  t.countP (fun e => decide (e = Ev.wait))

/-- Session state of the driver: the static variables of the C file.
All `uint8_t` fields are `Nat` kept below 256, `firmware` is `uint16_t`,
the time fields are `unsigned long`.  `dtrEnabled` is the extra `boolean`
of the `printer_` port (absent from the kp347 port, which never reads it). -/
structure PState where
  printMode : Nat
  prevByte : Nat
  column : Nat
  maxColumn : Nat
  charHeight : Nat
  lineSpacing : Nat
  barcodeHeight : Nat
  maxChunkHeight : Nat
  dtrPin : Nat
  firmware : Nat
  dotPrintTime : Nat
  dotFeedTime : Nat
  dtrEnabled : Bool
  deriving DecidableEq

/-- Zero-initialized static state (C statics start at 0; `dtrPin = 0`). -/
def initialState : PState :=
  { printMode := 0, prevByte := 0, column := 0, maxColumn := 0,
    charHeight := 0, lineSpacing := 0, barcodeHeight := 0,
    maxChunkHeight := 0, dtrPin := 0, firmware := 0,
    dotPrintTime := 0, dotFeedTime := 0, dtrEnabled := false }

/-- `write(uint8_t c)`: carriage returns are dropped; a newline or a full
line (`column == maxColumn`) resets `column` to 0 with a line-advance
deadline, otherwise `column` is incremented (as `uint8_t`). -/
def write (c : Nat) (s : PState) : PState × List Ev :=
  if c = 13 then (s, [])
  else
    if c = 10 ∨ s.column = s.maxColumn then
      let d := BYTE_TIME +
        (if s.prevByte = 10 then (s.charHeight + s.lineSpacing) * s.dotFeedTime
         else s.charHeight * s.dotPrintTime + s.lineSpacing * s.dotFeedTime)
      ({ s with column := 0, prevByte := 10 },
       [Ev.wait, Ev.send c, Ev.setTimeout d])
    else
      ({ s with column := (s.column + 1) % 256, prevByte := c },
       [Ev.wait, Ev.send c, Ev.setTimeout BYTE_TIME])

/-- `tab()`: emits a TAB byte and advances `column` to the next multiple
of 4, masked (`column = (column + 4) & 0b11111100`, stored as `uint8_t`). -/
def tab (s : PState) : PState × List Ev :=
  ({ s with column := ((s.column + 4) &&& 0b11111100) % 256 }, writeBytes 9)

/-- `adjustCharValues(printMode)`: recomputes `charHeight` and `maxColumn`
from the font, double-width and double-height bits of the mask.  The C
statement `maxColumn /= 2` is overwritten by the final
`maxColumn = 384 / charWidth`. -/
def adjustCharValues (pm : Nat) (s : PState) : PState :=
  let charHeight0 := if pm &&& 1 ≠ 0 then 17 else 24
  let charWidth0 := if pm &&& 1 ≠ 0 then 9 else 12
  let s1 := if pm &&& 32 ≠ 0 then { s with maxColumn := s.maxColumn / 2 } else s
  let charWidth1 := if pm &&& 32 ≠ 0 then charWidth0 * 2 else charWidth0
  let charHeight1 := if pm &&& 16 ≠ 0 then charHeight0 * 2 else charHeight0
  { s1 with charHeight := charHeight1, maxColumn := 384 / charWidth1 }

/-- `writePrintMode()`: `ESC '!' printMode`. -/
def writePrintMode (s : PState) : List Ev :=
  writeTripleBytes 27 33 s.printMode

/-- `setPrintMode(mask)`: or the mask into `printMode`, emit the mode
command, re-derive the character geometry. -/
def setPrintMode (mask : Nat) (s : PState) : PState × List Ev :=
  let s1 := { s with printMode := (s.printMode ||| mask) % 256 }
  (adjustCharValues s1.printMode s1, writePrintMode s1)

/-- `unsetPrintMode(mask)`: clear the mask bits of `printMode`
(`printMode &= ~mask` on `uint8_t`), emit the mode command, re-derive
the character geometry. -/
def unsetPrintMode (mask : Nat) (s : PState) : PState × List Ev :=
  let s1 := { s with printMode := s.printMode &&& (255 ^^^ mask % 256) }
  (adjustCharValues s1.printMode s1, writePrintMode s1)

/-- Loop body of the pre-264 branch of `feed`: `while (x--) write('\n')`. -/
def feedOldLoop : Nat → PState → PState × List Ev
  | 0, s => (s, [])
  | n + 1, s =>
    ((feedOldLoop n (write 10 s).1).1,
     (write 10 s).2 ++ (feedOldLoop n (write 10 s).1).2)

/-- `feed(x)`: firmware 264 and later uses the counted-feed command
`ESC 'd' x` with one feed deadline; older firmware writes `x` newlines. -/
def feed (x : Nat) (s : PState) : PState × List Ev :=
  if 264 ≤ s.firmware then
    ({ s with prevByte := 10, column := 0 },
     writeTripleBytes 27 100 x ++ [Ev.setTimeout (s.dotFeedTime * s.charHeight)])
  else
    feedOldLoop x s

/-- `feedRows(rows)`: `ESC 'J' rows` plus a per-row feed deadline. -/
def feedRows (rows : Nat) (s : PState) : PState × List Ev :=
  ({ s with prevByte := 10, column := 0 },
   writeTripleBytes 27 74 rows ++ [Ev.setTimeout (rows * s.dotFeedTime)])

/-- `reset()`: init command, default state fields, and tab stops on
firmware 264 and later. -/
def reset (s : PState) : PState × List Ev :=
  ({ s with prevByte := 10, column := 0, maxColumn := 32, charHeight := 24,
            lineSpacing := 6, barcodeHeight := 50 },
   writeDoubleBytes 27 64 ++
   (if 264 ≤ s.firmware then
      writeDoubleBytes 27 68 ++ writeQuadBytes 4 8 12 16 ++
      writeQuadBytes 20 24 28 0
    else []))

/-- `setHeatConfig(dots, time, interval)`: `ESC '7'` then the three
parameter bytes. -/
def setHeatConfig (dots time interval : Nat) : List Ev :=
  writeDoubleBytes 27 55 ++ writeTripleBytes dots time interval

/-- `wake()`: zero deadline, wake byte, then either the sleep-off command
(firmware 264 and later, after a 50 ms delay) or ten NUL bytes each
followed by a 10 ms deadline. -/
def wake (s : PState) : PState × List Ev :=
  (s, [Ev.setTimeout 0] ++ writeBytes 255 ++
      (if 264 ≤ s.firmware then
         [Ev.delay 50] ++ writeQuadBytes 27 56 0 0
       else
         (List.replicate 10 (writeBytes 0 ++ [Ev.setTimeout 10000])).flatten))

/-- `begin(version)`: store the firmware version, boot grace deadline,
wake, reset, default heat config, DTR enable command when a DTR pin is
configured (`dtrPin < 255`), then the default timing constants.  The kp347
port has no `dtrEnabled` flag: the state is unchanged apart from the
fields written here. -/
def begin (version : Nat) (s : PState) : PState × List Ev :=
  let s0 := { s with firmware := version % 65536 }
  let (s1, t1) := wake s0
  let (s2, t2) := reset s1
  ({ s2 with dotPrintTime := 30000, dotFeedTime := 2100, maxChunkHeight := 255 },
   [Ev.setTimeout 500000] ++ t1 ++ t2 ++ setHeatConfig 11 120 40 ++
   (if s2.dtrPin < 255 then writeTripleBytes 29 97 32 else []))

/-- `setPrintDensity(density, breakTime)`:
`DC2 '#' ((density << 5) | breakTime)`, the parameter truncated to
`uint8_t`. -/
def setPrintDensity (density breakTime : Nat) : List Ev :=
  writeTripleBytes 18 35 (((density <<< 5) ||| breakTime) % 256)

/-- Unsigned 32-bit difference `a - b` as computed on `unsigned long`
operands (modulo `2^32`). -/
def u32sub (a b : Nat) : Nat :=
  (a % 4294967296 + (4294967296 - b % 4294967296)) % 4294967296

/-- Reinterpretation test: a 32-bit value cast to `long` is negative
exactly when its value is at least `2^31`. -/
def signedNegative (x : Nat) : Bool :=
  decide (2147483648 ≤ x)

/-- Exit condition of the kp347 `timeoutWait()` busy loop
`while ((long)(micros() - resumeTime) < 0L) yield();`: the loop exits
when the rollover-safe signed difference is no longer negative.  The
kp347 port has no handshake branch: this is the whole wait. -/
def timeoutWaitExit (now resumeTime : Nat) : Bool :=
  !(signedNegative (u32sub now resumeTime))

/-- Exit condition of `printer_timeoutWait()` of the `printer_` port:
with `dtrEnabled` the loop `while (digitalRead(dtrPin) == HIGH)` exits
when the busy line is not high; otherwise the deadline loop of
`timeoutWaitExit` is used. -/
def printer_timeoutWaitExit (dtrEnabled busyHigh : Bool) (now resumeTime : Nat) : Bool :=
  if dtrEnabled then !busyHigh else timeoutWaitExit now resumeTime

/-- `printer_init()`: clears `dtrEnabled`. -/
def printer_init (s : PState) : PState :=
  { s with dtrEnabled := false }

/-- State effect of `printer_begin()`: firmware is fixed at 300, the
reset defaults are applied, `dtrEnabled` is set exactly when a DTR pin
is configured (`dtrPin < 255`), then the default timing constants.
(The emitted bytes of this port are not modelled; its sends are
commented out in the source.) -/
def printer_begin (s : PState) : PState :=
  let s0 := { s with firmware := 300 }
  let s1 := (reset s0).1
  let s2 := if s1.dtrPin < 255 then { s1 with dtrEnabled := true } else s1
  { s2 with dotPrintTime := 30000, dotFeedTime := 2100, maxChunkHeight := 255 }

/-- Operations of the print-mode state machine quantified over in the
column-invariant claim. -/
inductive Op where
  | write (c : Nat)
  | tab
  | feed (n : Nat)
  | feedRows (n : Nat)
  | setPrintMode (mask : Nat)
  | unsetPrintMode (mask : Nat)
  | reset
  deriving DecidableEq

/-- Apply one operation to the session state, collecting its trace. -/
def applyOp : Op → PState → PState × List Ev
  | Op.write c, s => write c s
  | Op.tab, s => tab s
  | Op.feed n, s => feed n s
  | Op.feedRows n, s => feedRows n s
  | Op.setPrintMode m, s => setPrintMode m s
  | Op.unsetPrintMode m, s => unsetPrintMode m s
  | Op.reset, s => reset s

/-- Run a sequence of operations (traces dropped). -/
def execOps (ops : List Op) (s : PState) : PState :=
  ops.foldl (fun s op => (applyOp op s).1) s

/-- Operations that keep `column` within `[0, maxColumn]`: `write`,
`feed` and `feedRows` (the latter two reset `column` to 0) and `reset`;
`tab` and the print-mode changes are excluded. -/
def columnSafeOp : Op → Bool
  | Op.write _ => true
  | Op.feed _ => true
  | Op.feedRows _ => true
  | Op.reset => true
  | _ => false

/-- `rowBytes = (w + 7) / 8` of the bitmap printers, with the C `int`
truncating division. -/
def rowBytesOf (w : Int) : Int :=
  (w + 7).tdiv 8

/-- `rowBytesClipped = (rowBytes >= 48) ? 48 : rowBytes`. -/
def rowBytesClippedOf (w : Int) : Int :=
  if 48 ≤ rowBytesOf w then 48 else rowBytesOf w

/-- Trace of one bitmap row portion actually transmitted: for each of the
`rbc` row bytes, a `timeoutWait` then the byte at the running source
index. -/
def bitmapRowTr (bm : Nat → Nat) (i rbc : Nat) : List Ev :=
  ((List.range rbc).map (fun x => [Ev.wait, Ev.send (bm (i + x))])).flatten

/-- Rows of one strip: row `y` starts at source index `i + y * rowBytes`;
after the transmitted `rbc` bytes the remaining `rowBytes - rbc` source
bytes of the row are consumed without transmission (`i += rowBytes -
rowBytesClipped`). -/
def bitmapRowsTr (bm : Nat → Nat) (rowBytes rbc : Nat) (i : Nat) : Nat → List Ev
  | 0 => []
  | c + 1 => bitmapRowTr bm i rbc ++ bitmapRowsTr bm rowBytes rbc (i + rowBytes) c

/-- Strip loop of `printBitmapFromBitMap`, mirroring
`for (i = rowStart = 0; rowStart < h; rowStart += chunkHeightLimit)`.
`fuel` bounds the iteration count; `h` iterations suffice whenever
`limit ≥ 1`. -/
def printBitmapLoop (bm : Nat → Nat) (rowBytes rbc limit dpt : Nat) :
    Nat → Nat → Nat → Nat → List Ev
  | 0, _, _, _ => []
  | fuel + 1, i, rowStart, h =>
    if rowStart < h then
      let chunkHeight := if h - rowStart > limit then limit else h - rowStart
      writeQuadBytes 18 42 chunkHeight rbc ++
      bitmapRowsTr bm rowBytes rbc i chunkHeight ++
      [Ev.setTimeout (chunkHeight * dpt)] ++
      printBitmapLoop bm rowBytes rbc limit dpt fuel
        (i + chunkHeight * rowBytes) (rowStart + limit) h
    else []

/-- `printBitmapFromBitMap(w, h, bitmap)` for nonnegative `w`, `h`
(the claims under proof assume `w ≥ 1`, `h ≥ 1`, where the C `int`
arithmetic coincides with `Nat` arithmetic): raster chunking with the
256-byte buffer estimate clamped by `maxChunkHeight`, then
`prevByte = '\n'`. -/
def printBitmapFromBitMap (bm : Nat → Nat) (w h : Nat) (s : PState) :
    PState × List Ev :=
  let rowBytes := (w + 7) / 8
  let rowBytesClipped := if 48 ≤ rowBytes then 48 else rowBytes
  let chl0 := 256 / rowBytesClipped
  let chunkHeightLimit :=
    if chl0 > s.maxChunkHeight then s.maxChunkHeight
    else if chl0 < 1 then 1 else chl0
  ({ s with prevByte := 10 },
   printBitmapLoop bm rowBytes rowBytesClipped chunkHeightLimit
     s.dotPrintTime h 0 0 h)

/-- Poll loop of `hasPaper()`: up to `n` attempts starting at attempt
index `i`; an available byte is read and stops the loop, a missed
attempt costs one `delay(100)`.  Returns the final `status` (started at
`-1`) and the number of delays. -/
def hasPaperPollAux (avail : Nat → Option Nat) (i : Nat) : Nat → Int × Nat
  | 0 => (-1, 0)
  | n + 1 =>
    match avail i with
    | some b => ((b : Int), 0)
    | none =>
      let r := hasPaperPollAux avail (i + 1) n
      (r.1, r.2 + 1)

/-- The ten-attempt poll of `hasPaper()`. -/
def hasPaperPoll (avail : Nat → Option Nat) : Int × Nat :=
  hasPaperPollAux avail 0 10

/-- `hasPaper()`: status query (opcode family depends on firmware), then
the poll; the result is `!(status & 0b00000100)`. -/
def hasPaper (fw : Nat) (avail : Nat → Option Nat) : Bool × List Ev :=
  (((hasPaperPoll avail).1.land 4) == 0,
   if 264 ≤ fw then writeTripleBytes 27 118 0 else writeTripleBytes 29 114 0)

/-- Clamp per the spec's words: `clamp(x, lo, hi)` with an ordered pair
of bounds (`lo ≤ hi`), the value forced into `[lo, hi]`. -/
def specClamp (x lo hi : Nat) : Nat :=
  max lo (min x hi)

/-- Strip heights per the spec's words: the image is cut top-to-bottom
into strips of `limit` rows, the last strip possibly shorter. -/
def specStripHeights (limit h : Nat) : List Nat :=
  List.replicate (h / limit) limit ++ (if h % limit = 0 then [] else [h % limit])

/-- Transmitted portion of global bitmap row `r` per the spec's words:
exactly `rbc` data bytes taken from source offsets `r * rowBytes + x`
(`x < rbc`), each preceded by a wait — the `rowBytes - rbc` excess bytes
of the row are skipped over without disturbing the next row's offset. -/
def specRowTr (bm : Nat → Nat) (rowBytes rbc r : Nat) : List Ev :=
  ((List.range rbc).map (fun x => [Ev.wait, Ev.send (bm (r * rowBytes + x))])).flatten

/-- Rows `r0, r0+1, ...` of one strip per the spec's words. -/
def specRowsTr (bm : Nat → Nat) (rowBytes rbc : Nat) (r0 : Nat) : Nat → List Ev
  | 0 => []
  | c + 1 => specRowTr bm rowBytes rbc r0 ++ specRowsTr bm rowBytes rbc (r0 + 1) c

/-- Raster emission per the spec's words: for each strip height `c` in
turn (first global row `r0`), a four-byte raster header
`(DC2, '*', c, rbc)`, the strip's rows, and one deadline of
`c * dotPrintTime`. -/
def specTraceFromHeights (bm : Nat → Nat) (rowBytes rbc dpt : Nat) :
    Nat → List Nat → List Ev
  | _, [] => []
  | r0, c :: rest =>
    writeQuadBytes 18 42 c rbc ++
    specRowsTr bm rowBytes rbc r0 c ++
    [Ev.setTimeout (c * dpt)] ++
    specTraceFromHeights bm rowBytes rbc dpt (r0 + c) rest

/-- Helper of `eachSendPrecededByWait`, carrying the previous event. -/
def eachSendPrecededByWaitAux (prev : Ev) : List Ev → Bool
  | [] => true
  | e :: rest =>
    (match e with
     | Ev.send _ => decide (prev = Ev.wait)
     | _ => true) && eachSendPrecededByWaitAux e rest

/-- Formalizes the spec's words for the encoder claim: every transmitted
byte of the trace is immediately preceded by its own `timeoutWait`. -/
def eachSendPrecededByWait (t : List Ev) : Bool :=
  eachSendPrecededByWaitAux (Ev.setTimeout 0) t

/-! ### Helper lemmas -/

theorem sends_append (t1 t2 : List Ev) :
    sends (t1 ++ t2) = sends t1 ++ sends t2 := by
  simp [sends]

theorem waitCount_append (t1 t2 : List Ev) :
    waitCount (t1 ++ t2) = waitCount t1 + waitCount t2 := by
  simp [waitCount, List.countP_append]

/-! ### C6: idempotence of adjustCharValues -/

/-- C6: `adjustCharValues` is idempotent: for every print-mode mask and
every starting session state, applying it twice with the same mask gives
the same `charHeight` and `maxColumn` as applying it once. -/
theorem adjustCharValues_idempotent (pm : Nat) (s : PState) :
    (adjustCharValues pm (adjustCharValues pm s)).charHeight =
      (adjustCharValues pm s).charHeight ∧
    (adjustCharValues pm (adjustCharValues pm s)).maxColumn =
      (adjustCharValues pm s).maxColumn := by
  unfold adjustCharValues
  split_ifs <;> simp_all

/-! ### C8: print-density packing -/

theorem small_or_eq_add : ∀ a < 8, ∀ b < 32, (a * 32) ||| b = a * 32 + b := by
  decide

/-- C8: `setPrintDensity(density, breakTime)` emits the parameter byte
`((density << 5) | breakTime)` truncated to 8 bits; for
`breakTime < 32` that byte is `32 * (density mod 8) + breakTime`
(density in the top three bits, break time in the low five), and the
concrete pair (20, 3) packs to `((20 << 5) | 3) mod 256 = 131`. -/
theorem setPrintDensity_packing (density breakTime : Nat)
    (hbt : breakTime < 32) :
    sends (setPrintDensity density breakTime) =
      [18, 35, ((density <<< 5) ||| breakTime) % 256] ∧
    ((density <<< 5) ||| breakTime) % 256 = (density % 8) * 32 + breakTime ∧
    ((20 <<< 5) ||| 3) % 256 = 131 ∧
    sends (setPrintDensity 20 3) = [18, 35, 131] := by
  refine ⟨by simp [sends, setPrintDensity, writeTripleBytes], ?_, by decide, by decide⟩
  have h1 : density <<< 5 = density * 32 := by
    simp [Nat.shiftLeft_eq]
  have h2 : ((density * 32) ||| breakTime) % 256 =
      ((density * 32) % 256) ||| (breakTime % 256) := by
    apply Nat.eq_of_testBit_eq
    intro i
    simp only [show (256 : Nat) = 2 ^ 8 from by norm_num,
      Nat.testBit_mod_two_pow, Nat.testBit_or]
    by_cases hi : i < 8 <;> simp [hi]
  have h3 : (density * 32) % 256 = (density % 8) * 32 := by
    omega
  have h4 : breakTime % 256 = breakTime := Nat.mod_eq_of_lt (by omega)
  rw [h1, h2, h3, h4]
  exact small_or_eq_add (density % 8) (Nat.mod_lt _ (by norm_num)) breakTime hbt

theorem setPrintDensity_packing_witness :
    3 < 32 ∧
    (sends (setPrintDensity 20 3) =
       [18, 35, ((20 <<< 5) ||| 3) % 256] ∧
     ((20 <<< 5) ||| 3) % 256 = (20 % 8) * 32 + 3 ∧
     ((20 <<< 5) ||| 3) % 256 = 131 ∧
     sends (setPrintDensity 20 3) = [18, 35, 131]) :=
  ⟨by decide, setPrintDensity_packing 20 3 (by decide)⟩

/-! ### C7: print-mode round trip -/

/-- C7 counterexample: starting with the bold bit already set, toggling
bold on (`setPrintMode(BOLD_MASK)`) then off (`unsetPrintMode(BOLD_MASK)`)
leaves `printMode = 0`, not the pre-toggle value 8. -/
theorem setUnsetPrintMode_no_roundtrip :
    ({ initialState with printMode := 8 } : PState).printMode = 8 ∧
    ((unsetPrintMode 8
        (setPrintMode 8 { initialState with printMode := 8 }).1).1).printMode
      = 0 := by
  decide

theorem bit_or_andnot_roundtrip :
    ∀ pm < 256, ∀ m ∈ [1, 2, 4, 8, 16, 32, 64],
      pm &&& m = 0 → ((pm ||| m) % 256) &&& (255 ^^^ m % 256) = pm := by
  decide

/-- C7 (amended): for every single print-mode bit mask and every session
state whose `printModeMask` does not already contain that bit, toggling
the bit on then off restores the pre-toggle mask exactly.  (When the bit
is already set, the round trip clears it instead.) -/
theorem setUnsetPrintMode_roundtrip (mask : Nat) (s : PState)
    (hm : mask ∈ [1, 2, 4, 8, 16, 32, 64]) (hpm : s.printMode < 256)
    (hclear : s.printMode &&& mask = 0) :
    ((unsetPrintMode mask (setPrintMode mask s).1).1).printMode =
      s.printMode := by
  have h := bit_or_andnot_roundtrip s.printMode hpm mask hm hclear
  simp only [setPrintMode, unsetPrintMode, adjustCharValues]
  split_ifs <;> simpa using h

theorem setUnsetPrintMode_roundtrip_witness :
    ((8 : Nat) ∈ [1, 2, 4, 8, 16, 32, 64] ∧ initialState.printMode < 256 ∧
     initialState.printMode &&& 8 = 0) ∧
    ((unsetPrintMode 8 (setPrintMode 8 initialState).1).1).printMode =
      initialState.printMode :=
  ⟨⟨by decide, by decide, by decide⟩,
   setUnsetPrintMode_roundtrip 8 initialState (by decide) (by decide) (by decide)⟩

/-! ### C10: bitmap width precondition -/

/-- C10: for widths `w` in `[-7, 0]` the bitmap printers compute
`rowBytes = (w+7)/8 = 0` (C truncating division), hence
`rowBytesClipped = 0` and `chunkHeightLimit = 256 / rowBytesClipped`
divides by zero; for `w ≥ 1` the divisor is at least 1. -/
theorem bitmap_rowBytes_division (w : Int) :
    (-7 ≤ w → w ≤ 0 → rowBytesClippedOf w = 0) ∧
    (1 ≤ w → 1 ≤ rowBytesClippedOf w) := by
  constructor
  · intro h1 h2
    interval_cases w <;> decide
  · intro h1
    have h8 : (8 : Int) ≤ w + 7 := by omega
    obtain ⟨n, hn⟩ : ∃ n : Nat, w + 7 = (n : Int) :=
      ⟨(w + 7).toNat, by omega⟩
    have hrb : rowBytesOf w = ((n / 8 : Nat) : Int) := by
      rw [rowBytesOf, hn]
      exact (Int.ofNat_tdiv n 8).symm
    have hn8 : 8 ≤ n := by omega
    have hdiv : 1 ≤ n / 8 := (Nat.one_le_div_iff (by omega)).mpr hn8
    rw [rowBytesClippedOf, hrb]
    split_ifs <;> [norm_num; exact_mod_cast hdiv]

theorem bitmap_rowBytes_division_witness :
    ((-7 : Int) ≤ -3 ∧ (-3 : Int) ≤ 0 ∧ rowBytesClippedOf (-3) = 0) ∧
    ((1 : Int) ≤ 400 ∧ 1 ≤ rowBytesClippedOf 400) :=
  ⟨⟨by norm_num, by norm_num,
    (bitmap_rowBytes_division (-3)).1 (by norm_num) (by norm_num)⟩,
   ⟨by norm_num, (bitmap_rowBytes_division 400).2 (by norm_num)⟩⟩

/-! ### C2: multi-byte encoder wait discipline -/

/-- C2 counterexample: in `writeDoubleBytes` (and likewise the triple and
quad writers) only the first transmitted byte is immediately preceded by
a `timeoutWait`; the claim that each individual byte is preceded by an
`awaitDeadline` call fails already for the second byte.  (The
single-byte writer does satisfy it.) -/
theorem multiByte_per_byte_wait_fails :
    eachSendPrecededByWait (writeDoubleBytes 0 0) = false ∧
    eachSendPrecededByWait (writeQuadBytes 0 0 0 0) = false ∧
    eachSendPrecededByWait (writeBytes 0) = true := by
  decide

/-- C2 (amended): each N-byte emission performs a single `timeoutWait`
before the first byte, sends the N bytes back to back, and issues one
aggregate `timeoutSet(N * BYTE_TIME)` after all N bytes (not per byte). -/
theorem multiByte_trace_discipline (a b c d : Nat) :
    writeDoubleBytes a b =
      [Ev.wait] ++ [Ev.send a, Ev.send b] ++ [Ev.setTimeout (2 * BYTE_TIME)] ∧
    writeTripleBytes a b c =
      [Ev.wait] ++ [Ev.send a, Ev.send b, Ev.send c] ++
        [Ev.setTimeout (3 * BYTE_TIME)] ∧
    writeQuadBytes a b c d =
      [Ev.wait] ++ [Ev.send a, Ev.send b, Ev.send c, Ev.send d] ++
        [Ev.setTimeout (4 * BYTE_TIME)] ∧
    waitCount (writeDoubleBytes a b) = 1 ∧
    timeouts (writeDoubleBytes a b) = [2 * BYTE_TIME] ∧
    waitCount (writeTripleBytes a b c) = 1 ∧
    timeouts (writeTripleBytes a b c) = [3 * BYTE_TIME] ∧
    waitCount (writeQuadBytes a b c d) = 1 ∧
    timeouts (writeQuadBytes a b c d) = [4 * BYTE_TIME] := by
  refine ⟨rfl, rfl, rfl, ?_, ?_, ?_, ?_, ?_, ?_⟩ <;>
    simp [waitCount, timeouts, writeDoubleBytes, writeTripleBytes,
      writeQuadBytes, List.countP_cons]

/-! ### C5: feed dispatch on firmware version -/

theorem feedOldLoop_sends (x : Nat) :
    ∀ s : PState, sends (feedOldLoop x s).2 = List.replicate x 10 ∧
      waitCount (feedOldLoop x s).2 = x := by
  induction x with
  | zero => intro s; simp [feedOldLoop, sends, waitCount]
  | succ n ih =>
    intro s
    have hw : (write 10 s).2 =
        [Ev.wait, Ev.send 10,
         Ev.setTimeout (BYTE_TIME +
           (if s.prevByte = 10 then (s.charHeight + s.lineSpacing) * s.dotFeedTime
            else s.charHeight * s.dotPrintTime + s.lineSpacing * s.dotFeedTime))] := by
      simp [write]
    have hrec := ih (write 10 s).1
    have hs : sends (write 10 s).2 = [10] := by rw [hw]; rfl
    have hwc : waitCount (write 10 s).2 = 1 := by rw [hw]; rfl
    constructor
    · simp only [feedOldLoop, sends_append, hs, hrec.1, List.replicate_succ]
      rfl
    · simp only [feedOldLoop, waitCount_append, hwc, hrec.2]
      omega

/-- C5: firmware 264 and later makes `feed(x)` a single three-byte
`ESC 'd' x` command (one wait, the command's deadline plus the feed
deadline); older firmware issues exactly `x` newline writes, i.e. `x`
waits and the data bytes `'\n'` repeated `x` times. -/
theorem feed_version_dispatch (x : Nat) (s : PState) (hx : x < 256) :
    (264 ≤ s.firmware →
       (feed x s).2 = writeTripleBytes 27 100 x ++
         [Ev.setTimeout (s.dotFeedTime * s.charHeight)] ∧
       waitCount (feed x s).2 = 1 ∧
       sends (feed x s).2 = [27, 100, x]) ∧
    (s.firmware < 264 →
       sends (feed x s).2 = List.replicate x 10 ∧
       waitCount (feed x s).2 = x) := by
  constructor
  · intro hfw
    rw [feed, if_pos hfw]
    refine ⟨rfl, ?_, ?_⟩ <;>
      simp [waitCount, sends, writeTripleBytes, List.countP_cons]
  · intro hfw
    rw [feed, if_neg (by omega)]
    exact feedOldLoop_sends x s

theorem feed_version_dispatch_witness :
    (3 : Nat) < 256 ∧
    (264 ≤ ({ initialState with firmware := 270 } : PState).firmware →
       (feed 3 { initialState with firmware := 270 }).2 =
         writeTripleBytes 27 100 3 ++
           [Ev.setTimeout
             (({ initialState with firmware := 270 } : PState).dotFeedTime *
              ({ initialState with firmware := 270 } : PState).charHeight)] ∧
       waitCount (feed 3 { initialState with firmware := 270 }).2 = 1 ∧
       sends (feed 3 { initialState with firmware := 270 }).2 = [27, 100, 3]) ∧
    (({ initialState with firmware := 270 } : PState).firmware < 264 →
       sends (feed 3 { initialState with firmware := 270 }).2 =
         List.replicate 3 10 ∧
       waitCount (feed 3 { initialState with firmware := 270 }).2 = 3) :=
  ⟨by decide, feed_version_dispatch 3 { initialState with firmware := 270 } (by decide)⟩

/-! ### C9: paper-sensor poll -/

theorem land_neg_one_four : Int.land (-1) 4 = 4 := by
  show Int.land (Int.negSucc 0) (Int.ofNat 4) = Int.ofNat 4
  simp only [Int.land]
  norm_num [Nat.ldiff, Nat.bitwise_zero_right]

theorem hasPaperPollAux_none (avail : Nat → Option Nat) :
    ∀ n i, (∀ j, j < n → avail (i + j) = none) →
      hasPaperPollAux avail i n = (-1, n) := by
  intro n
  induction n with
  | zero => intro i _; rfl
  | succ m ih =>
    intro i h
    have h0 : avail i = none := by simpa using h 0 (by omega)
    have hrec := ih (i + 1) (fun j hj => by
      have := h (j + 1) (by omega)
      simpa [Nat.add_assoc, Nat.add_comm 1 j] using this)
    simp [hasPaperPollAux, h0, hrec]

theorem hasPaperPollAux_congr (avail avail2 : Nat → Option Nat) :
    ∀ n i, (∀ j, j < n → avail (i + j) = avail2 (i + j)) →
      hasPaperPollAux avail i n = hasPaperPollAux avail2 i n := by
  intro n
  induction n with
  | zero => intro i _; rfl
  | succ m ih =>
    intro i h
    have h0 : avail i = avail2 i := by simpa using h 0 (by omega)
    have hrec := ih (i + 1) (fun j hj => by
      have := h (j + 1) (by omega)
      simpa [Nat.add_assoc, Nat.add_comm 1 j] using this)
    simp [hasPaperPollAux, h0, hrec]

theorem hasPaperPollAux_found (avail : Nat → Option Nat) (b : Nat) :
    ∀ n k i, k < n → (∀ j, j < k → avail (i + j) = none) →
      avail (i + k) = some b →
      hasPaperPollAux avail i n = ((b : Int), k) := by
  intro n
  induction n with
  | zero => omega
  | succ m ih =>
    intro k i hk hnone hfound
    cases k with
    | zero =>
      have h0 : avail i = some b := by simpa using hfound
      simp [hasPaperPollAux, h0]
    | succ k' =>
      have h0 : avail i = none := by simpa using hnone 0 (by omega)
      have hrec := ih k' (i + 1) (by omega)
        (fun j hj => by
          have := hnone (j + 1) (by omega)
          simpa [Nat.add_assoc, Nat.add_comm 1 j] using this)
        (by
          have : i + (k' + 1) = i + 1 + k' := by omega
          rw [← this]; exact hfound)
      simp [hasPaperPollAux, h0, hrec]

/-- C9: `hasPaper` polls in a bounded loop of exactly 10 attempts with a
`delay(100)` per failed attempt, stopping early at the first available
byte; attempts beyond the tenth are never consulted; when no byte
arrives, `status` stays `-1`, whose paper-out bit `0b100` is set, so the
result is `false` — exactly the result of receiving a status byte with
the paper-out bit set. -/
theorem hasPaper_poll_behaviour :
    (∀ avail : Nat → Option Nat, (∀ i, i < 10 → avail i = none) →
       hasPaperPoll avail = (-1, 10) ∧ (hasPaper 270 avail).1 = false) ∧
    (∀ (avail : Nat → Option Nat) (k b : Nat), k < 10 →
       (∀ j, j < k → avail j = none) → avail k = some b →
       hasPaperPoll avail = ((b : Int), k)) ∧
    (∀ avail avail2 : Nat → Option Nat, (∀ i, i < 10 → avail i = avail2 i) →
       hasPaperPoll avail = hasPaperPoll avail2) ∧
    (∀ avail : Nat → Option Nat, (∀ i, i < 10 → avail i = none) →
       (hasPaper 270 avail).1 = (hasPaper 270 (fun _ => some 4)).1) := by
  have hnone : ∀ avail : Nat → Option Nat, (∀ i, i < 10 → avail i = none) →
      hasPaperPoll avail = (-1, 10) := by
    intro avail h
    exact hasPaperPollAux_none avail 10 0 (fun j hj => by simpa using h j hj)
  refine ⟨fun avail h => ⟨hnone avail h, ?_⟩, ?_, ?_, ?_⟩
  · simp [hasPaper, hnone avail h, land_neg_one_four]
  · intro avail k b hk hn hf
    exact hasPaperPollAux_found avail b 10 k 0 hk
      (fun j hj => by simpa using hn j hj) (by simpa using hf)
  · intro avail avail2 h
    exact hasPaperPollAux_congr avail avail2 10 0
      (fun j hj => by simpa using h j hj)
  · intro avail h
    have h4 : hasPaperPoll (fun _ => some 4) = ((4 : Int), 0) :=
      hasPaperPollAux_found (fun _ => some 4) 4 10 0 0 (by omega)
        (by omega) rfl
    have h44 : Int.land 4 4 = 4 := by decide
    simp [hasPaper, hnone avail h, h4, land_neg_one_four, h44]

theorem hasPaper_poll_behaviour_witness :
    ((∀ i, i < 10 → (fun _ : Nat => (none : Option Nat)) i = none) ∧
     hasPaperPoll (fun _ => none) = (-1, 10) ∧
     (hasPaper 270 (fun _ => none)).1 = false) ∧
    ((3 : Nat) < 10 ∧
     hasPaperPoll (fun j => if j < 3 then none else some 0) = ((0 : Int), 3)) :=
  ⟨⟨fun _ _ => rfl, hasPaper_poll_behaviour.1 (fun _ => none) (fun _ _ => rfl)⟩,
   ⟨by decide, hasPaper_poll_behaviour.2.1 (fun j => if j < 3 then none else some 0)
      3 0 (by decide) (fun j hj => by simp [hj]) (by simp)⟩⟩

/-! ### C3: flow-control modes -/

/-- C3 counterexample: in the kp347 port a handshake pin is configured
(`dtrPin = 0 < 255`, so `begin` emits the DTR-enable command
`GS 'a' (1<<5)` as its final bytes), yet `timeoutWait` does not poll any
busy line and does not ignore the deadline: its exit condition varies
with clock and deadline (true once the deadline passed, false before). -/
theorem kp347_handshake_deadline_not_ignored :
    initialState.dtrPin < 255 ∧
    (begin 270 initialState).2.drop ((begin 270 initialState).2.length - 5) =
      writeTripleBytes 29 97 32 ∧
    timeoutWaitExit 1000 500 = true ∧
    timeoutWaitExit 0 1000 = false := by
  decide

theorem write_dtrEnabled (c : Nat) (s : PState) :
    ((write c s).1).dtrEnabled = s.dtrEnabled := by
  unfold write
  split_ifs <;> rfl

theorem feedOldLoop_dtrEnabled : ∀ (n : Nat) (s : PState),
    ((feedOldLoop n s).1).dtrEnabled = s.dtrEnabled := by
  intro n
  induction n with
  | zero => intro s; rfl
  | succ m ih =>
    intro s
    simp only [feedOldLoop]
    rw [ih, write_dtrEnabled]

theorem adjustCharValues_dtrEnabled (pm : Nat) (s : PState) :
    (adjustCharValues pm s).dtrEnabled = s.dtrEnabled := by
  unfold adjustCharValues
  split_ifs <;> rfl

/-- C3 (amended): in the `printer_` port the two wait modes behave as
claimed: with `dtrEnabled` the exit condition is exactly
"busy line not high", independent of clock and deadline; without it the
exit condition is the rollover-safe signed comparison, which correctly
holds off a pending deadline even across a 32-bit clock wraparound and
releases once reached.  The mode flag is chosen once: no state-machine
operation changes `dtrEnabled`, and after `printer_init` then
`printer_begin` it equals exactly "a DTR pin is configured".
(In the kp347 port, by contrast, `timeoutWait` always uses the deadline
comparison.) -/
theorem flowControl_modes :
    (∀ (busy : Bool) (now resume now2 resume2 : Nat),
       printer_timeoutWaitExit true busy now resume = !busy ∧
       printer_timeoutWaitExit true busy now resume =
         printer_timeoutWaitExit true busy now2 resume2) ∧
    (∀ (busy : Bool) (now resume : Nat),
       printer_timeoutWaitExit false busy now resume =
         timeoutWaitExit now resume) ∧
    (∀ now d : Nat, now < 4294967296 → 0 < d → d < 2147483648 →
       timeoutWaitExit now ((now + d) % 4294967296) = false) ∧
    (∀ t : Nat, timeoutWaitExit t t = true) ∧
    (∀ (op : Op) (s : PState), ((applyOp op s).1).dtrEnabled = s.dtrEnabled) ∧
    (∀ s : PState,
       (printer_begin (printer_init s)).dtrEnabled = decide (s.dtrPin < 255)) := by
  refine ⟨fun busy now resume now2 resume2 => ⟨rfl, rfl⟩,
          fun busy now resume => rfl, ?_, ?_, ?_, ?_⟩
  · intro now d h1 h2 h3
    have h : 2147483648 ≤ u32sub now ((now + d) % 4294967296) := by
      simp only [u32sub]
      omega
    simp [timeoutWaitExit, signedNegative, h]
  · intro t
    have h : u32sub t t = 0 := by
      simp only [u32sub]
      omega
    simp [timeoutWaitExit, signedNegative, h]
  · intro op s
    cases op with
    | write c => exact write_dtrEnabled c s
    | tab => rfl
    | feed n =>
      simp only [applyOp, feed]
      split_ifs
      · rfl
      · exact feedOldLoop_dtrEnabled n s
    | feedRows n => rfl
    | setPrintMode m =>
      simp only [applyOp, setPrintMode]
      rw [adjustCharValues_dtrEnabled]
    | unsetPrintMode m =>
      simp only [applyOp, unsetPrintMode]
      rw [adjustCharValues_dtrEnabled]
    | reset => rfl
  · intro s
    simp only [printer_begin, printer_init, reset]
    split_ifs <;> simp_all

theorem flowControl_modes_witness :
    (100 < 4294967296 ∧ 0 < 50 ∧ 50 < 2147483648) ∧
    timeoutWaitExit 100 ((100 + 50) % 4294967296) = false :=
  ⟨⟨by norm_num, by norm_num, by norm_num⟩,
   flowControl_modes.2.2.1 100 50 (by norm_num) (by norm_num) (by norm_num)⟩

/-! ### C1: column range invariant -/

/-- C1 counterexample: from the reset state (a reachable session state),
32 writes of a printable character leave `column` equal to `maxColumn`
(32), violating the claimed half-open range `[0, maxColumn)` — the wrap
to 0 only happens on the next `write`. -/
theorem column_reaches_maxColumn :
    ¬ ((execOps (Op.reset :: List.replicate 32 (Op.write 65)) initialState).column <
       (execOps (Op.reset :: List.replicate 32 (Op.write 65)) initialState).maxColumn) ∧
    (execOps (Op.reset :: List.replicate 32 (Op.write 65)) initialState).column = 32 ∧
    (execOps (Op.reset :: List.replicate 32 (Op.write 65)) initialState).maxColumn = 32 := by
  decide

theorem write_column_le (c : Nat) (s : PState) (hs : s.column ≤ s.maxColumn) :
    ((write c s).1).column ≤ ((write c s).1).maxColumn := by
  unfold write
  split_ifs with h1 h2 h3
  · exact hs
  · simp
  · simp
  · show (s.column + 1) % 256 ≤ s.maxColumn
    have hne : s.column ≠ s.maxColumn := fun h => h2 (Or.inr h)
    have := Nat.mod_le (s.column + 1) 256
    omega

theorem reset_column_le (s : PState) :
    ((reset s).1).column ≤ ((reset s).1).maxColumn := by
  simp [reset]

theorem feedOldLoop_column_le : ∀ (n : Nat) (s : PState),
    s.column ≤ s.maxColumn →
    ((feedOldLoop n s).1).column ≤ ((feedOldLoop n s).1).maxColumn := by
  intro n
  induction n with
  | zero => intro s hs; exact hs
  | succ m ih =>
    intro s hs
    simp only [feedOldLoop]
    exact ih (write 10 s).1 (write_column_le 10 s hs)

theorem feed_column_le (n : Nat) (s : PState) (hs : s.column ≤ s.maxColumn) :
    ((feed n s).1).column ≤ ((feed n s).1).maxColumn := by
  unfold feed
  split_ifs
  · simp
  · exact feedOldLoop_column_le n s hs

theorem feedRows_column_le (n : Nat) (s : PState) :
    ((feedRows n s).1).column ≤ ((feedRows n s).1).maxColumn := by
  simp [feedRows]

/-- C1 (amended): under sequences consisting only of `write`, `feed`,
`feedRows` and `reset` operations, `column` stays in the closed range
`[0, maxColumn]` — `write` can leave `column` equal to `maxColumn` (the
wrap to 0 happens on the following `write`), and `feed`/`feedRows`
reset `column` to 0.  The two excluded operation kinds genuinely break
even the closed range at reachable states: from reset, 32 writes then
`tab` give `column = 36 > 32 = maxColumn`, and from reset, 20 writes
then `setPrintMode(DOUBLE_WIDTH_MASK)` shrink `maxColumn` to 16 while
`column` stays 20. -/
theorem write_feed_reset_column_closed_range (ops : List Op) (s : PState)
    (hops : ops.all columnSafeOp = true) (hs : s.column ≤ s.maxColumn) :
    (execOps ops s).column ≤ (execOps ops s).maxColumn ∧
    (execOps (Op.reset :: (List.replicate 32 (Op.write 65) ++ [Op.tab]))
        initialState).column = 36 ∧
    (execOps (Op.reset :: (List.replicate 32 (Op.write 65) ++ [Op.tab]))
        initialState).maxColumn = 32 ∧
    (execOps (Op.reset :: (List.replicate 20 (Op.write 65) ++ [Op.setPrintMode 32]))
        initialState).column = 20 ∧
    (execOps (Op.reset :: (List.replicate 20 (Op.write 65) ++ [Op.setPrintMode 32]))
        initialState).maxColumn = 16 := by
  refine ⟨?_, by decide, by decide, by decide, by decide⟩
  induction ops generalizing s with
  | nil => simpa [execOps] using hs
  | cons op rest ih =>
    rw [List.all_cons, Bool.and_eq_true] at hops
    have hstep : ((applyOp op s).1).column ≤ ((applyOp op s).1).maxColumn := by
      cases op with
      | write c => exact write_column_le c s hs
      | feed n => exact feed_column_le n s hs
      | feedRows n => exact feedRows_column_le n s
      | reset => exact reset_column_le s
      | tab => simp [columnSafeOp] at hops
      | setPrintMode m => simp [columnSafeOp] at hops
      | unsetPrintMode m => simp [columnSafeOp] at hops
    have hexec : execOps (op :: rest) s = execOps rest (applyOp op s).1 := rfl
    rw [hexec]
    exact ih (applyOp op s).1 hops.2 hstep

theorem write_feed_reset_column_closed_range_witness :
    ([Op.reset, Op.write 65, Op.write 66, Op.feed 2, Op.feedRows 3].all
       columnSafeOp = true ∧
     initialState.column ≤ initialState.maxColumn) ∧
    ((execOps [Op.reset, Op.write 65, Op.write 66, Op.feed 2, Op.feedRows 3]
        initialState).column ≤
      (execOps [Op.reset, Op.write 65, Op.write 66, Op.feed 2, Op.feedRows 3]
        initialState).maxColumn ∧
     (execOps (Op.reset :: (List.replicate 32 (Op.write 65) ++ [Op.tab]))
         initialState).column = 36 ∧
     (execOps (Op.reset :: (List.replicate 32 (Op.write 65) ++ [Op.tab]))
         initialState).maxColumn = 32 ∧
     (execOps (Op.reset :: (List.replicate 20 (Op.write 65) ++ [Op.setPrintMode 32]))
         initialState).column = 20 ∧
     (execOps (Op.reset :: (List.replicate 20 (Op.write 65) ++ [Op.setPrintMode 32]))
         initialState).maxColumn = 16) :=
  ⟨⟨by decide, by decide⟩,
   write_feed_reset_column_closed_range
     [Op.reset, Op.write 65, Op.write 66, Op.feed 2, Op.feedRows 3]
     initialState (by decide) (by decide)⟩

/-! ### C4: bitmap chunking refinement -/

theorem printBitmapLoop_stop (bm : Nat → Nat) (rowBytes rbc limit dpt : Nat)
    (fuel i rowStart h : Nat) (hge : ¬ rowStart < h) :
    printBitmapLoop bm rowBytes rbc limit dpt fuel i rowStart h = [] := by
  cases fuel with
  | zero => rfl
  | succ n => simp [printBitmapLoop, hge]

theorem bitmapRowsTr_spec (bm : Nat → Nat) (rowBytes rbc : Nat) :
    ∀ (c r0 : Nat),
      bitmapRowsTr bm rowBytes rbc (r0 * rowBytes) c =
        specRowsTr bm rowBytes rbc r0 c := by
  intro c
  induction c with
  | zero => intro r0; rfl
  | succ n ih =>
    intro r0
    simp only [bitmapRowsTr, specRowsTr]
    have h1 : bitmapRowTr bm (r0 * rowBytes) rbc = specRowTr bm rowBytes rbc r0 := rfl
    rw [h1, show r0 * rowBytes + rowBytes = (r0 + 1) * rowBytes by ring, ih (r0 + 1)]

theorem specStripHeights_zero (limit : Nat) : specStripHeights limit 0 = [] := by
  simp [specStripHeights]

theorem specStripHeights_cons (limit m : Nat) (hlim : 1 ≤ limit) (hm : 1 ≤ m) :
    specStripHeights limit m =
      (if m > limit then limit else m) ::
        specStripHeights limit (m - (if m > limit then limit else m)) := by
  by_cases hml : m > limit
  · rw [if_pos hml]
    have hdiv : m / limit = (m - limit) / limit + 1 :=
      Nat.div_eq_sub_div hlim (by omega)
    have hmod : m % limit = (m - limit) % limit := Nat.mod_eq_sub_mod (by omega)
    simp only [specStripHeights, hdiv, hmod, List.replicate_succ, List.cons_append]
  · rw [if_neg hml]
    rcases Nat.lt_or_ge m limit with hlt | hge
    · have hdiv : m / limit = 0 := Nat.div_eq_of_lt hlt
      have hmod : m % limit = m := Nat.mod_eq_of_lt hlt
      have hne : m ≠ 0 := by omega
      simp [specStripHeights, hdiv, hmod, hne]
    · have heq : m = limit := by omega
      subst heq
      simp [specStripHeights, Nat.div_self (by omega : 0 < m), Nat.mod_self]

theorem printBitmapLoop_spec (bm : Nat → Nat) (rowBytes rbc limit dpt : Nat)
    (hlim : 1 ≤ limit) :
    ∀ (fuel rowStart h : Nat), h - rowStart ≤ fuel →
      printBitmapLoop bm rowBytes rbc limit dpt fuel (rowStart * rowBytes) rowStart h =
        specTraceFromHeights bm rowBytes rbc dpt rowStart
          (specStripHeights limit (h - rowStart)) := by
  intro fuel
  induction fuel with
  | zero =>
    intro rowStart h hle
    have h0 : h - rowStart = 0 := by omega
    rw [h0, specStripHeights_zero]
    rfl
  | succ n ih =>
    intro rowStart h hle
    by_cases hrs : rowStart < h
    · have hm : 1 ≤ h - rowStart := by omega
      by_cases hbig : h - rowStart > limit
      · rw [specStripHeights_cons limit (h - rowStart) hlim hm, if_pos hbig]
        simp only [printBitmapLoop, if_pos hrs, if_pos hbig, specTraceFromHeights]
        rw [bitmapRowsTr_spec,
          show rowStart * rowBytes + limit * rowBytes = (rowStart + limit) * rowBytes
            by ring,
          show h - rowStart - limit = h - (rowStart + limit) by omega,
          ih (rowStart + limit) h (by omega)]
      · rw [specStripHeights_cons limit (h - rowStart) hlim hm, if_neg hbig]
        simp only [printBitmapLoop, if_pos hrs, if_neg hbig, specTraceFromHeights]
        rw [bitmapRowsTr_spec,
          show h - rowStart - (h - rowStart) = 0 by omega,
          specStripHeights_zero,
          printBitmapLoop_stop bm rowBytes rbc limit dpt n _ (rowStart + limit) h
            (by omega)]
        rfl
    · have h0 : h - rowStart = 0 := by omega
      rw [h0, specStripHeights_zero,
        printBitmapLoop_stop bm rowBytes rbc limit dpt (n + 1) _ rowStart h hrs]
      rfl

/-- C4: for `w ≥ 1`, `h ≥ 1` and a positive `maxChunkHeight` (the
spec's `clamp(·, 1, maxChunkHeight)` presupposes ordered bounds), the
buffered bitmap printer computes `rowBytes = ceil(w/8) = (w+7)/8`,
`rowBytesClipped = min(rowBytes, 48)` and
`chunkHeightLimit = clamp(256 / rowBytesClipped, 1, maxChunkHeight)`,
and emits exactly the spec's strip sequence: strips of
`chunkHeightLimit` rows top to bottom (last strip possibly shorter),
each with a four-byte header `(DC2, '*', stripHeight, rowBytesClipped)`,
each row transmitting exactly `rowBytesClipped` bytes taken from source
offsets `row * rowBytes`, so the per-row excess is discarded without
breaking row alignment; `prevByte` ends as newline.  The claim's
concrete cases: `w = 400` gives `rowBytes = 50`, clipped 48, 2 excess
bytes per row; `maxChunkHeight = 255`, `h = 500`, `rowBytesClipped = 48`
give `chunkHeightLimit = 5` and exactly 100 strips of height 5. -/
theorem printBitmap_chunking (bm : Nat → Nat) (w h : Nat) (s : PState)
    (hw : 1 ≤ w) (hh : 1 ≤ h) (hmch : 1 ≤ s.maxChunkHeight) :
    ((printBitmapFromBitMap bm w h s).2 =
       specTraceFromHeights bm ((w + 7) / 8) (min ((w + 7) / 8) 48)
         s.dotPrintTime 0
         (specStripHeights
           (specClamp (256 / min ((w + 7) / 8) 48) 1 s.maxChunkHeight) h) ∧
     (printBitmapFromBitMap bm w h s).1 = { s with prevByte := 10 } ∧
     (400 + 7) / 8 = 50 ∧
     min ((400 + 7) / 8) 48 = 48 ∧
     (400 + 7) / 8 - min ((400 + 7) / 8) 48 = 2 ∧
     specClamp (256 / 48) 1 255 = 5 ∧
     specStripHeights 5 500 = List.replicate 100 5) := by
  refine ⟨?_, rfl, by norm_num, by norm_num, by norm_num, by decide, by decide⟩
  have hrb1 : 1 ≤ (w + 7) / 8 := (Nat.one_le_div_iff (by norm_num)).mpr (by omega)
  have hclip : (if 48 ≤ (w + 7) / 8 then 48 else (w + 7) / 8) =
      min ((w + 7) / 8) 48 := by
    rcases Nat.lt_or_ge ((w + 7) / 8) 48 with hlt | hge
    · rw [if_neg (by omega), Nat.min_eq_left (by omega)]
    · rw [if_pos hge, Nat.min_eq_right hge]
  have hrbc1 : 1 ≤ min ((w + 7) / 8) 48 := le_min hrb1 (by norm_num)
  have hch5 : 5 ≤ 256 / min ((w + 7) / 8) 48 := by
    calc (5 : Nat) = 256 / 48 := by norm_num
      _ ≤ 256 / min ((w + 7) / 8) 48 :=
          Nat.div_le_div_left (min_le_right _ _) hrbc1
  have hcode : (if 256 / min ((w + 7) / 8) 48 > s.maxChunkHeight
        then s.maxChunkHeight
        else if 256 / min ((w + 7) / 8) 48 < 1 then 1
        else 256 / min ((w + 7) / 8) 48) =
      specClamp (256 / min ((w + 7) / 8) 48) 1 s.maxChunkHeight := by
    simp only [specClamp]
    split_ifs <;> omega
  have hlim1 : 1 ≤ specClamp (256 / min ((w + 7) / 8) 48) 1 s.maxChunkHeight :=
    le_max_left _ _
  have hmain := printBitmapLoop_spec bm ((w + 7) / 8) (min ((w + 7) / 8) 48)
    (specClamp (256 / min ((w + 7) / 8) 48) 1 s.maxChunkHeight)
    s.dotPrintTime hlim1 h 0 h (by omega)
  rw [Nat.zero_mul, Nat.sub_zero] at hmain
  simp only [printBitmapFromBitMap, hclip, hcode]
  exact hmain

/-- Concrete session used by the bitmap witness. -/
def bitmapWitnessState : PState :=
  { initialState with maxChunkHeight := 255, dotPrintTime := 30000 }

theorem printBitmap_chunking_witness :
    ((1 : Nat) ≤ 8 ∧ (1 : Nat) ≤ 2 ∧ 1 ≤ bitmapWitnessState.maxChunkHeight) ∧
    ((printBitmapFromBitMap (fun _ => 0) 8 2 bitmapWitnessState).2 =
       specTraceFromHeights (fun _ => 0) ((8 + 7) / 8) (min ((8 + 7) / 8) 48)
         bitmapWitnessState.dotPrintTime 0
         (specStripHeights
           (specClamp (256 / min ((8 + 7) / 8) 48) 1
             bitmapWitnessState.maxChunkHeight) 2) ∧
     (printBitmapFromBitMap (fun _ => 0) 8 2 bitmapWitnessState).1 =
       { bitmapWitnessState with prevByte := 10 } ∧
     (400 + 7) / 8 = 50 ∧
     min ((400 + 7) / 8) 48 = 48 ∧
     (400 + 7) / 8 - min ((400 + 7) / 8) 48 = 2 ∧
     specClamp (256 / 48) 1 255 = 5 ∧
     specStripHeights 5 500 = List.replicate 100 5) :=
  ⟨⟨by norm_num, by norm_num, by decide⟩,
   printBitmap_chunking (fun _ => 0) 8 2 bitmapWitnessState
     (by norm_num) (by norm_num) (by decide)⟩

end KP347
